import Mathlib

/-!
Verification of the repository layer of `ts-data-repository`.

The development shallowly embeds the runtime behaviour of the repository
class in `src/unnamed/part_000` (operations `convertArchived`, `getQuery`,
`byID`, `byQuery`, `count`, `distinct`, `countDistinct`, `exists`, `all`,
`paginate`, `update`, `softDelete`, `delete`, `deleteMany`) together with
the record shape from `src/unnamed/part_001` / `src/src/repo.interface.ts`.

Modelling conventions:
* JavaScript `undefined | null | boolean | string` values for the
  `archived` option become the inductive `ArchVal`.
* A stored document becomes `Model` (fields `_id`, `created_at`,
  `updated_at`, `deleted_at`); the backend collection state is a
  `List Model`, and `findOne` is first-match (`List.find?`).
* A Mongo filter value `{field: undefined}` is sent by the driver as
  `{field: null}` and matches documents where the field is absent or
  null; we model it as `Option.isNone` of the deletion timestamp, and
  `{field: {$ne: undefined}}` as `Option.isSome`.
* Promise rejection becomes `Except String`; the NotFound rejection
  carries the error name `"ModelNotFoundError"`.
* Numbers flowing through `Number(...)` are modelled as `Option Int`:
  `none` is the absent / non-numeric (`NaN`) case, `some n` a numeric
  value.  `x || d` on numbers picks `d` exactly when `x` is `NaN` or `0`.
-/

namespace Repo

/-- JavaScript value of type `undefined | null | boolean | string`, the
input domain of the `archived` option (`Archived = string | boolean`,
optionally absent). -/
inductive ArchVal where
  | undef : ArchVal
  | null : ArchVal
  | bool : Bool → ArchVal
  | str : String → ArchVal
deriving DecidableEq

/-- JavaScript truthiness of an `ArchVal`: `undefined`, `null`, `false`
and the empty string are falsy, everything else is truthy. -/
def jsTruthy : ArchVal → Bool
  | ArchVal.undef => false
  | ArchVal.null => false
  | ArchVal.bool b => b
  | ArchVal.str s => s ≠ ""

/-- The expression `archived || false` used by `byID`, `all` and
`paginate` before calling `convertArchived`. -/
def jsOrFalse (a : ArchVal) : ArchVal :=
  if jsTruthy a then a else ArchVal.bool false

/-- Source `convertArchived` (part_000 lines 49-50):
`[undefined, "false", false, null].includes(archived) ? false : true`. -/
def convertArchived (archived : ArchVal) : Bool :=
  if archived ∈ [ArchVal.undef, ArchVal.str "false", ArchVal.bool false, ArchVal.null]
  then false else true

/-- A stored document: the `Model<T>` shape (`_id`, creation/update
timestamps, optional deletion timestamp).  Timestamps are `Nat` instants;
the document payload is irrelevant to every claim and omitted.  The source
mixes the spellings `deleted_at` and `deletedAt` for one runtime field; we
use `deleted_at`, the name actually written by `findOneAndUpdate`. -/
structure Model where
  _id : String
  created_at : Nat
  updated_at : Nat
  deleted_at : Option Nat
deriving DecidableEq

/-- A condition argument: either an id string or an object filter
(modelled extensionally as a predicate on documents). -/
inductive Cond where
  | str : String → Cond
  | obj : (Model → Bool) → Cond

/-- Source private `getQuery` (part_000 lines 56-57):
`typeof condition === "string" ? { _id: condition } : { ...condition }`. -/
def getQuery : Cond → (Model → Bool)
  | Cond.str s => fun r => r._id == s
  | Cond.obj p => p

/-- The empty-object condition `{}`: a Mongo filter with no clauses
matches every document. -/
def emptyCond : Cond := Cond.obj (fun _ => true)

/-- The error name set by `makeError(..., "ModelNotFoundError")`. -/
def modelNotFound : String := "ModelNotFoundError"

/-- The soft-delete part of the filter built by `byID` / `byQuery`
(part_000 lines 164-167): `!archived ? { deleted_at: undefined } :
{ deleted_at: { $ne: undefined } }`. -/
def singleDeletedCond (archived : Bool) (d : Option Nat) : Bool :=
  if !archived then d.isNone else d.isSome

/-- The soft-delete part of the filter built by `all` (part_000 lines
255-263): `!archived ? { deleted_at: undefined } : { $or:
[{ deleted_at: { $ne: undefined } }, { deleted_at: undefined }] }`. -/
def allDeletedCond (archived : Bool) (d : Option Nat) : Bool :=
  if !archived then d.isNone else (d.isSome || d.isNone)

/-- The soft-delete part of the `dbQuery` built by `paginate` (part_000
lines 286-291): `!archived ? { deletedAt: undefined } :
{ deletedAt: { $ne: undefined } }`. -/
def paginateDeletedCond (archived : Bool) (d : Option Nat) : Bool :=
  if !archived then d.isNone else d.isSome

/-- The full backend filter derived by `all` from a caller query and the
`archived` option (`convertArchived(options?.archived || false)`). -/
def allDbFilter (q : Model → Bool) (a : ArchVal) (r : Model) : Bool :=
  q r && allDeletedCond (convertArchived (jsOrFalse a)) r.deleted_at

/-- The full backend filter (`dbQuery`) derived by `paginate` from a
caller query and the `archived` option. -/
def paginateDbFilter (q : Model → Bool) (a : ArchVal) (r : Model) : Bool :=
  q r && paginateDeletedCond (convertArchived (jsOrFalse a)) r.deleted_at

/-- Source `byID` (part_000 lines 105-148): filter on the id plus the
archived clause, `findOne`, reject with NotFound when no match.  The
archived flag is `convertArchived(options?.archived || false)`. -/
def byID (id : String) (a : ArchVal) (st : List Model) : Except String Model :=
  let archived := convertArchived (jsOrFalse a)
  match st.find? (fun r => r._id == id && singleDeletedCond archived r.deleted_at) with
  | none => Except.error modelNotFound
  | some r => Except.ok r

/-- Source `byQuery` (part_000 lines 154-183).  Its archived handling is
`if (archived) { archived = this.convertArchived(archived) }` followed by
a truthiness test of the (possibly reassigned) value in `!archived`. -/
def byQuery (q : Model → Bool) (a : ArchVal) (st : List Model) : Except String Model :=
  let archived := if jsTruthy a then ArchVal.bool (convertArchived a) else a
  match st.find? (fun r => q r && singleDeletedCond (jsTruthy archived) r.deleted_at) with
  | none => Except.error modelNotFound
  | some r => Except.ok r

/-- Source `count` (part_000 lines 188-204): `countDocuments({...query})`,
no archived clause, resolves with the number of matches. -/
def count (q : Model → Bool) (st : List Model) : Except String Nat :=
  Except.ok (st.filter q).length

/-- Source `distinct` (part_000 lines 209-225): distinct values of a field
over the matching documents; resolves (possibly with `[]`). -/
def distinct (f : Model → String) (q : Model → Bool) (st : List Model) :
    Except String (List String) :=
  Except.ok ((st.filter q).map f).dedup

/-- Source `countDistinct` (part_000 lines 230-235):
`this.distinct(field, query).then((ids) => ids.length)`. -/
def countDistinct (f : Model → String) (q : Model → Bool) (st : List Model) :
    Except String Nat :=
  match distinct f q st with
  | Except.error e => Except.error e
  | Except.ok l => Except.ok l.length

/-- Source `exists` (part_000 lines 240-242; `exists` is a Lean keyword):
`this.model.exists(query).then((result) => !!result)`. -/
def existsQ (q : Model → Bool) (st : List Model) : Except String Bool :=
  Except.ok (st.find? q).isSome

/-- The `query` argument of `all`: conditions plus optional
`skip` / `limit` (`query?.skip || 0`, `query?.limit || 0`; a Mongo
`limit(0)` means no limit). -/
structure AllQuery where
  conditions : Model → Bool
  skip : Option Nat
  limit : Option Nat

/-- Source `all` (part_000 lines 247-271): find with the widened archived
clause, then skip and limit; always resolves. -/
def allOp (q : AllQuery) (a : ArchVal) (st : List Model) : Except String (List Model) :=
  let matched := st.filter (allDbFilter q.conditions a)
  let skipped := matched.drop (q.skip.getD 0)
  Except.ok (if q.limit.getD 0 = 0 then skipped else skipped.take (q.limit.getD 0))

/-- Pagination request (`PaginatedQuery`): `page` and `limit` as optional
numbers; `none` models an absent or non-numeric (`NaN`) value. -/
structure PaginatedQuery where
  page : Option Int
  limit : Option Int

/-- The `page` object of a paginated result. -/
structure PageInfo where
  current : Int
  next : Option Int
  prev : Option Int
deriving DecidableEq

/-- A paginated result (`Paginated<T>`), without the pass-through `sort`
field. -/
structure Paginated (α : Type) where
  data : List α
  total : Nat
  limit : Int
  offset : Int
  pages : Int
  page : PageInfo

/-- Source line 281, `Number(pagination.page) - 1 || 0`: the internal
0-based page index.  `Number(undefined)` is `NaN`, and `NaN || 0` is `0`;
for a numeric page `n` the value is `n - 1`, except that a result of `0`
is (idempotently) replaced by `0` by `|| 0`.  Note the absence of any
clamping: `n = 0` yields `-1`. -/
def jsPageIndex : Option Int → Int
  | none => 0
  | some n => if n - 1 = 0 then 0 else n - 1

/-- Source line 282, `Number(pagination.limit) || 20`: the effective
limit; `20` when the request limit is absent, non-numeric or `0`. -/
def jsLimit : Option Int → Int
  | none => 20
  | some l => if l = 0 then 20 else l

/-- `Math.ceil(a / b)` on integer operands (exact for every `b ≠ 0`):
the ceiling of the rational `a / b`, computed as `-((-a).fdiv b)`. -/
def jsCeil (a b : Int) : Int := -((-a).fdiv b)

/-- Source `paginate` (part_000 lines 276-333).  The two backend reads
are injected: `total` is what `count(dbQuery)` resolved with, `rows` what
`find(dbQuery).limit(limit).skip(offset)` resolved with.  Everything else
is the source's arithmetic:
* `page = Number(pagination.page) - 1 || 0`, `limit = Number(pagination.limit) || 20`;
* `offset = page * limit`;
* `pages = Math.ceil(count / limit)`;
* `page.current = page + 1`;
* `page.prev = page > 0 ? page : null`;
* `page.next = page < Math.ceil(result.length / limit) ? page + 2 : null`. -/
def paginate {α : Type} (pq : PaginatedQuery) (total : Nat) (rows : List α) :
    Paginated α :=
  let page := jsPageIndex pq.page
  let limit := jsLimit pq.limit
  { data := rows
    total := total
    limit := limit
    offset := page * limit
    pages := jsCeil (total : Int) limit
    page :=
      { current := page + 1
        prev := if page > 0 then some page else none
        next := if page < jsCeil (rows.length : Int) limit then some (page + 2) else none } }

/-- Replace the first document matching `q` (what `findOneAndUpdate`
touches). -/
def replaceFirst (q : Model → Bool) (f : Model → Model) : List Model → List Model
  | [] => []
  | r :: rest => if q r then f r :: rest else r :: replaceFirst q f rest

/-- Remove the first document matching `q` (what `findOneAndDelete`
removes). -/
def removeFirst (q : Model → Bool) : List Model → List Model
  | [] => []
  | r :: rest => if q r then rest else r :: removeFirst q rest

/-- Source `update` (part_000 lines 342-361): `findOne(getQuery(condition))`
with no archived clause, reject with NotFound when no match, else apply
the update and save.  Returns the saved document and the new state. -/
def update (cond : Cond) (upd : Model → Model) (st : List Model) :
    Except String (Model × List Model) :=
  let q := getQuery cond
  match st.find? q with
  | none => Except.error modelNotFound
  | some r => Except.ok (upd r, replaceFirst q upd st)

/-- Source `softDelete` (part_000 lines 389-415): first `byQuery(condition)`
with no options (so the lookup keeps only documents whose deletion
timestamp is absent), then `findOneAndUpdate(query, {deleted_at: now})`,
rejecting with NotFound if either finds no document.  Resolves with the
previously fetched document, its `deletedAt` set.  The source builds two
`new Date()` values for the two writes; both are modelled by `now`. -/
def softDelete (now : Nat) (cond : Cond) (st : List Model) :
    Except String (Model × List Model) :=
  let q := getQuery cond
  match byQuery q ArchVal.undef st with
  | Except.error e => Except.error e
  | Except.ok old =>
    match st.find? q with
    | none => Except.error modelNotFound
    | some _ =>
      Except.ok ({ old with deleted_at := some now },
        replaceFirst q (fun r => { r with deleted_at := some now }) st)

/-- Source `delete` (part_000 lines 452-455): `findOneAndDelete(query)`
and nothing else — in particular no check of the result, so the promise
resolves even when no document matches. -/
def delete (cond : Cond) (st : List Model) : Except String (List Model) :=
  let q := getQuery cond
  Except.ok (removeFirst q st)

/-- Source `deleteMany` (part_000 lines 461-464): the `condition`
parameter defaults to `{}`; `deleteMany(getQuery(condition))` removes
every matching document and resolves. -/
def deleteMany (cond : Option Cond) (st : List Model) : Except String (List Model) :=
  let q := getQuery (cond.getD emptyCond)
  Except.ok (st.filter (fun r => !(q r)))

/-! ### Shared lemmas -/

/-- `jsCeil` really is the ceiling of the rational quotient (for a
positive divisor). -/
lemma jsCeil_eq_ceil (a b : Int) (hb : 0 < b) :
    jsCeil a b = ⌈(a : ℚ) / (b : ℚ)⌉ := by
  have hbn : ((b.toNat : ℤ)) = b := Int.toNat_of_nonneg hb.le
  have h1 : ⌊((-a : ℤ) : ℚ) / (b : ℚ)⌋ = (-a) / b := by
    calc ⌊((-a : ℤ) : ℚ) / (b : ℚ)⌋
        = ⌊((-a : ℤ) : ℚ) / ((b.toNat : ℕ) : ℚ)⌋ := by
          rw [show ((b.toNat : ℕ) : ℚ) = ((b : ℤ) : ℚ) by exact_mod_cast hbn]
      _ = (-a) / ((b.toNat : ℕ) : ℤ) := Rat.floor_intCast_div_natCast (-a) b.toNat
      _ = (-a) / b := by rw [hbn]
  have h2 : (-a).fdiv b = (-a) / b := Int.fdiv_eq_ediv _ hb.le
  have h3 : ((-a : ℤ) : ℚ) / (b : ℚ) = -((a : ℚ) / (b : ℚ)) := by
    push_cast
    ring
  rw [jsCeil, h2, ← h1, h3, Int.floor_neg, neg_neg]

lemma jsCeil_zero (b : Int) : jsCeil 0 b = 0 := by
  simp [jsCeil, Int.fdiv]

lemma jsCeil_one_of_le (len L : Int) (h0 : 0 < len) (hL : len ≤ L) :
    jsCeil len L = 1 := by
  have hLpos : 0 < L := lt_of_lt_of_le h0 hL
  rw [jsCeil_eq_ceil _ _ hLpos]
  have hLq : (0 : ℚ) < (L : ℚ) := by exact_mod_cast hLpos
  have hle : ((len : ℚ)) / (L : ℚ) ≤ 1 := by
    rw [div_le_one hLq]
    exact_mod_cast hL
  have hpos : (0 : ℚ) < (len : ℚ) / (L : ℚ) := by
    apply div_pos _ hLq
    exact_mod_cast h0
  have hu : ⌈(len : ℚ) / (L : ℚ)⌉ ≤ 1 := by
    rw [Int.ceil_le]
    exact_mod_cast hle
  have hl : 0 < ⌈(len : ℚ) / (L : ℚ)⌉ := by
    rw [Int.lt_ceil]
    exact_mod_cast hpos
  omega

lemma jsCeil_le_one (len L : Int) (h0 : 0 ≤ len) (hL : len ≤ L) :
    jsCeil len L ≤ 1 := by
  rcases eq_or_lt_of_le h0 with h | h
  · rw [← h, jsCeil_zero]
    omega
  · rw [jsCeil_one_of_le len L h hL]

lemma jsPageIndex_some (n : Int) : jsPageIndex (some n) = n - 1 := by
  show (if n - 1 = 0 then 0 else n - 1) = n - 1
  split <;> omega

lemma jsPageIndex_nonneg {p : Option Int}
    (hp : p = none ∨ ∃ n, p = some n ∧ 1 ≤ n) : 0 ≤ jsPageIndex p := by
  rcases hp with h | ⟨n, h, hn⟩
  · rw [h]
    exact le_refl 0
  · rw [h, jsPageIndex_some]
    omega

lemma jsLimit_ne_zero (l : Option Int) : jsLimit l ≠ 0 := by
  cases l with
  | none => simp [jsLimit]
  | some v =>
    unfold jsLimit
    split <;> omega

lemma paginate_data {α : Type} (pq : PaginatedQuery) (t : Nat) (rows : List α) :
    (paginate pq t rows).data = rows := rfl

lemma paginate_total {α : Type} (pq : PaginatedQuery) (t : Nat) (rows : List α) :
    (paginate pq t rows).total = t := rfl

lemma paginate_limit {α : Type} (pq : PaginatedQuery) (t : Nat) (rows : List α) :
    (paginate pq t rows).limit = jsLimit pq.limit := rfl

lemma paginate_offset {α : Type} (pq : PaginatedQuery) (t : Nat) (rows : List α) :
    (paginate pq t rows).offset = jsPageIndex pq.page * jsLimit pq.limit := rfl

lemma paginate_pages {α : Type} (pq : PaginatedQuery) (t : Nat) (rows : List α) :
    (paginate pq t rows).pages = jsCeil (t : Int) (jsLimit pq.limit) := rfl

lemma paginate_page_current {α : Type} (pq : PaginatedQuery) (t : Nat) (rows : List α) :
    (paginate pq t rows).page.current = jsPageIndex pq.page + 1 := rfl

lemma paginate_page_prev {α : Type} (pq : PaginatedQuery) (t : Nat) (rows : List α) :
    (paginate pq t rows).page.prev =
      if jsPageIndex pq.page > 0 then some (jsPageIndex pq.page) else none := rfl

lemma paginate_page_next {α : Type} (pq : PaginatedQuery) (t : Nat) (rows : List α) :
    (paginate pq t rows).page.next =
      if jsPageIndex pq.page < jsCeil (rows.length : Int) (jsLimit pq.limit)
      then some (jsPageIndex pq.page + 2) else none := rfl

/-! ### Claim theorems -/

/-- Claim C3: `convertArchived` returns "not archived" (`false`) exactly
on the inputs `undefined`, `null`, `false` and the string `"false"`, and
"archived" (`true`) on every other input — in particular on `true`, the
string `"true"`, and any other string. -/
theorem convertArchived_spec (a : ArchVal) :
    convertArchived a = false ↔
      a = ArchVal.undef ∨ a = ArchVal.null ∨ a = ArchVal.bool false ∨
        a = ArchVal.str "false" := by
  cases a with
  | undef => simp [convertArchived]
  | null => simp [convertArchived]
  | bool b => cases b <;> simp [convertArchived]
  | str s =>
    by_cases h : s = "false" <;> simp [convertArchived, h]

/-- Claim C10: `deleteMany` with the condition omitted defaults it to the
empty object, so the backend delete runs against the empty filter and
removes every record; the call resolves successfully for every state,
including the empty collection. -/
theorem deleteMany_default_empty_filter (st : List Model) :
    deleteMany none st = Except.ok ([] : List Model) := by
  unfold deleteMany emptyCond getQuery
  simp

/-- Claim C2 (evidence): behaviour of every operation when zero records
match.  On the empty collection, `byID`, `byQuery`, `update` and
`softDelete` reject with `"ModelNotFoundError"`, and `count`, `distinct`,
`countDistinct`, `exists`, `all` and `paginate` resolve with zero counts /
empty collections — but `delete` also RESOLVES (it never checks its
`findOneAndDelete` result), contradicting the claim and the source's own
doc comment `@throws a ModelNotFoundError()`. -/
theorem empty_match_behavior :
    byID "missing" ArchVal.undef ([] : List Model) = Except.error modelNotFound
    ∧ byQuery (fun _ => true) ArchVal.undef ([] : List Model) = Except.error modelNotFound
    ∧ update (Cond.str "missing") (fun r => r) ([] : List Model) = Except.error modelNotFound
    ∧ softDelete 1 (Cond.str "missing") ([] : List Model) = Except.error modelNotFound
    ∧ delete (Cond.str "missing") ([] : List Model) = Except.ok ([] : List Model)
    ∧ count (fun _ => true) ([] : List Model) = Except.ok 0
    ∧ distinct (fun r => r._id) (fun _ => true) ([] : List Model) = Except.ok ([] : List String)
    ∧ countDistinct (fun r => r._id) (fun _ => true) ([] : List Model) = Except.ok 0
    ∧ existsQ (fun _ => true) ([] : List Model) = Except.ok false
    ∧ allOp ⟨fun _ => true, none, none⟩ ArchVal.undef ([] : List Model) = Except.ok ([] : List Model)
    ∧ (paginate ⟨none, none⟩ 0 ([] : List Model)).data = [] :=
  ⟨rfl, rfl, rfl, rfl, rfl, rfl, rfl, rfl, rfl, rfl, rfl⟩

/-- Claim C1 (counterexample): on page 1 with limit 20 and only 5 rows
returned (5 < 20, so no further records remain), the code still returns
`page.next = 2` — `page.next` is not null exactly when the row count is
less than `limit`. -/
theorem paginate_next_counterexample :
    (paginate ⟨some 1, some 20⟩ 5 (List.replicate 5 (0 : Nat))).page.next = some 2
    ∧ ((List.replicate 5 (0 : Nat)).length : Int) <
        (paginate ⟨some 1, some 20⟩ 5 (List.replicate 5 (0 : Nat))).limit
    ∧ ¬((paginate ⟨some 1, some 20⟩ 5 (List.replicate 5 (0 : Nat))).page.next = none ↔
        ((List.replicate 5 (0 : Nat)).length : Int) <
          (paginate ⟨some 1, some 20⟩ 5 (List.replicate 5 (0 : Nat))).limit) := by
  decide

/-- Claim C1 (amended): for a paginate call whose request page is absent
or a number ≥ 1, and whose backend returns at most `limit` rows, the
returned `page.next` is `current + 1` (that is, `2`) exactly when the
call is for the first page (`current = 1`) and at least one row came
back; in every other case it is null.  Next-page detection depends only
on the size of the returned batch, never on `total`. -/
theorem paginate_next_amended (pq : PaginatedQuery) (total : Nat) (rows : List Nat)
    (hp : pq.page = none ∨ ∃ n, pq.page = some n ∧ 1 ≤ n)
    (hr : (rows.length : Int) ≤ (paginate pq total rows).limit) :
    (paginate pq total rows).page.next =
      if (paginate pq total rows).page.current = 1 ∧ rows ≠ [] then
        some ((paginate pq total rows).page.current + 1)
      else none := by
  have hnn : 0 ≤ jsPageIndex pq.page := jsPageIndex_nonneg hp
  rw [paginate_limit] at hr
  have hlen0 : (0 : Int) ≤ (rows.length : Int) := Int.natCast_nonneg _
  have hL0 : jsLimit pq.limit ≠ 0 := jsLimit_ne_zero _
  have hLpos : 0 < jsLimit pq.limit := by omega
  rw [paginate_page_next, paginate_page_current]
  cases rows with
  | nil =>
    have hc : jsCeil ((List.length ([] : List Nat)) : Int) (jsLimit pq.limit) = 0 := by
      simpa using jsCeil_zero (jsLimit pq.limit)
    rw [hc, if_neg (by omega), if_neg (by simp)]
  | cons a as =>
    have hlenpos : (0 : Int) < ((a :: as).length : Int) := by
      exact_mod_cast Nat.succ_pos as.length
    have hc : jsCeil (((a :: as).length : Nat) : Int) (jsLimit pq.limit) = 1 :=
      jsCeil_one_of_le _ _ hlenpos hr
    rw [hc]
    by_cases h0 : jsPageIndex pq.page = 0
    · rw [if_pos (by omega), if_pos ⟨by omega, by simp⟩, h0]
      norm_num
    · rw [if_neg (by omega), if_neg (by
        rintro ⟨h1, _⟩
        exact h0 (by omega))]

/-- Witness for the amended claim C1: page 1 of a 45-record collection
with limit 20 and a full batch of 20 rows yields `page.next = 2`. -/
theorem paginate_next_amended_witness :
    (paginate ⟨some 1, some 20⟩ 45 (List.replicate 20 (0 : Nat))).page.next =
      if (paginate ⟨some 1, some 20⟩ 45 (List.replicate 20 (0 : Nat))).page.current = 1
          ∧ List.replicate 20 (0 : Nat) ≠ [] then
        some ((paginate ⟨some 1, some 20⟩ 45 (List.replicate 20 (0 : Nat))).page.current + 1)
      else none :=
  paginate_next_amended ⟨some 1, some 20⟩ 45 (List.replicate 20 (0 : Nat))
    (Or.inr ⟨1, rfl, by decide⟩) (by decide)

/-- Claim C7: for a paginate call whose request page is absent or a
number ≥ 1, `page.prev` is null exactly when `page.current = 1`, and
equals `page.current - 1` otherwise. -/
theorem paginate_prev_spec (pq : PaginatedQuery) (total : Nat) (rows : List Nat)
    (hp : pq.page = none ∨ ∃ n, pq.page = some n ∧ 1 ≤ n) :
    ((paginate pq total rows).page.prev = none ↔
      (paginate pq total rows).page.current = 1)
    ∧ ((paginate pq total rows).page.current ≠ 1 →
        (paginate pq total rows).page.prev =
          some ((paginate pq total rows).page.current - 1)) := by
  have hnn : 0 ≤ jsPageIndex pq.page := jsPageIndex_nonneg hp
  rw [paginate_page_prev, paginate_page_current]
  constructor
  · by_cases h : jsPageIndex pq.page > 0
    · rw [if_pos h]
      simp
      omega
    · rw [if_neg h]
      simp
      omega
  · intro hne
    have hgt : jsPageIndex pq.page > 0 := by omega
    rw [if_pos hgt]
    congr 1
    omega

/-- Witness for claim C7: page 3 yields `current = 3` and `prev = 2`. -/
theorem paginate_prev_spec_witness :
    ((paginate ⟨some 3, some 20⟩ 45 ([] : List Nat)).page.prev = none ↔
      (paginate ⟨some 3, some 20⟩ 45 ([] : List Nat)).page.current = 1)
    ∧ ((paginate ⟨some 3, some 20⟩ 45 ([] : List Nat)).page.current ≠ 1 →
        (paginate ⟨some 3, some 20⟩ 45 ([] : List Nat)).page.prev =
          some ((paginate ⟨some 3, some 20⟩ 45 ([] : List Nat)).page.current - 1)) :=
  paginate_prev_spec ⟨some 3, some 20⟩ 45 ([] : List Nat)
    (Or.inr ⟨3, rfl, by decide⟩)

/-- Claim C9: for a paginate call whose 1-based request page is ≥ 2
(internal 0-based index ≥ 1) and whose backend returns at most `limit`
rows, `page.next` is always null, whatever `total` is: the bound
`Math.ceil(rows.length / limit)` never exceeds 1 when
`rows.length ≤ limit`. -/
theorem paginate_next_none_beyond_first (pq : PaginatedQuery) (total : Nat)
    (rows : List Nat) (n : Int) (hpage : pq.page = some n) (hn : 2 ≤ n)
    (hr : (rows.length : Int) ≤ (paginate pq total rows).limit) :
    (paginate pq total rows).page.next = none := by
  rw [paginate_limit] at hr
  have hlen0 : (0 : Int) ≤ (rows.length : Int) := Int.natCast_nonneg _
  have hceil : jsCeil (rows.length : Int) (jsLimit pq.limit) ≤ 1 :=
    jsCeil_le_one _ _ hlen0 hr
  have hidx : jsPageIndex pq.page = n - 1 := by rw [hpage, jsPageIndex_some]
  rw [paginate_page_next, if_neg (by omega)]

/-- Witness for claim C9: page 2 of 45 records with limit 20 and a full
batch of 20 rows still reports `page.next = null`. -/
theorem paginate_next_none_beyond_first_witness :
    (paginate ⟨some 2, some 20⟩ 45 (List.replicate 20 (0 : Nat))).page.next = none :=
  paginate_next_none_beyond_first ⟨some 2, some 20⟩ 45
    (List.replicate 20 (0 : Nat)) 2 rfl (by decide) (by decide)

/-- Claim C4 (counterexample): for `request.page = 0` the internal
0-based page index is `-1`, not `max(0, toNumber(request.page) - 1) = 0`
— the index (and with it the offset, here `-20`) can go negative. -/
theorem paginate_normalization_counterexample :
    (paginate ⟨some 0, some 20⟩ 0 ([] : List Nat)).page.current - 1 = -1
    ∧ (paginate ⟨some 0, some 20⟩ 0 ([] : List Nat)).offset = -20
    ∧ ¬((paginate ⟨some 0, some 20⟩ 0 ([] : List Nat)).page.current - 1 =
        max 0 ((0 : Int) - 1)) := by
  decide

/-- Claim C4 (amended): the internal 0-based page index (recoverable as
`page.current - 1`) equals `toNumber(request.page) - 1` when the request
page is numeric — with no clamping, so it is negative for
`request.page ≤ 0` — and `0` when the request page is absent or
non-numeric; the effective limit is `toNumber(request.limit)` when that
is a non-zero number and `20` otherwise; and the offset always equals
page index times limit. -/
theorem paginate_normalization_amended (pq : PaginatedQuery) (total : Nat)
    (rows : List Nat) :
    (pq.page = none → (paginate pq total rows).page.current - 1 = 0)
    ∧ (∀ n : Int, pq.page = some n → (paginate pq total rows).page.current - 1 = n - 1)
    ∧ (pq.limit = none → (paginate pq total rows).limit = 20)
    ∧ (∀ l : Int, pq.limit = some l → l ≠ 0 → (paginate pq total rows).limit = l)
    ∧ (∀ l : Int, pq.limit = some l → l = 0 → (paginate pq total rows).limit = 20)
    ∧ (paginate pq total rows).offset =
        ((paginate pq total rows).page.current - 1) * (paginate pq total rows).limit := by
  refine ⟨?_, ?_, ?_, ?_, ?_, ?_⟩
  · intro h
    rw [paginate_page_current, h]
    simp [jsPageIndex]
  · intro n h
    rw [paginate_page_current, h, jsPageIndex_some]
    ring
  · intro h
    rw [paginate_limit, h]
    rfl
  · intro l h hl
    rw [paginate_limit, h]
    unfold jsLimit
    simp [hl]
  · intro l h hl
    rw [paginate_limit, h, hl]
    rfl
  · rw [paginate_offset, paginate_page_current, paginate_limit]
    ring

/-- Witness for the amended claim C4 at concrete requests: a numeric
page 5 with limit 7 (index 4, limit 7, offset 28), an absent page and
limit (index 0, limit 20), and a zero limit (limit 20). -/
theorem paginate_normalization_amended_witness :
    (paginate ⟨none, none⟩ 0 ([] : List Nat)).page.current - 1 = 0
    ∧ (paginate ⟨some 5, some 7⟩ 0 ([] : List Nat)).page.current - 1 = 5 - 1
    ∧ (paginate ⟨none, none⟩ 0 ([] : List Nat)).limit = 20
    ∧ (paginate ⟨some 5, some 7⟩ 0 ([] : List Nat)).limit = 7
    ∧ (paginate ⟨some 5, some 0⟩ 0 ([] : List Nat)).limit = 20
    ∧ (paginate ⟨some 5, some 7⟩ 0 ([] : List Nat)).offset =
        ((paginate ⟨some 5, some 7⟩ 0 ([] : List Nat)).page.current - 1) *
          (paginate ⟨some 5, some 7⟩ 0 ([] : List Nat)).limit :=
  ⟨(paginate_normalization_amended ⟨none, none⟩ 0 []).1 rfl,
   (paginate_normalization_amended ⟨some 5, some 7⟩ 0 []).2.1 5 rfl,
   (paginate_normalization_amended ⟨none, none⟩ 0 []).2.2.1 rfl,
   (paginate_normalization_amended ⟨some 5, some 7⟩ 0 []).2.2.2.1 7 rfl (by decide),
   (paginate_normalization_amended ⟨some 5, some 0⟩ 0 []).2.2.2.2.1 0 rfl rfl,
   (paginate_normalization_amended ⟨some 5, some 7⟩ 0 []).2.2.2.2.2⟩

/-- Claim C5: every paginated result satisfies
`offset = (page.current - 1) * limit`, and — whenever the effective limit
is positive — `pages = ⌈total / limit⌉` with `total` the injected backend
count. -/
theorem paginate_offset_pages_invariant (pq : PaginatedQuery) (total : Nat)
    (rows : List Nat) :
    (paginate pq total rows).offset =
      ((paginate pq total rows).page.current - 1) * (paginate pq total rows).limit
    ∧ (0 < (paginate pq total rows).limit →
        (paginate pq total rows).pages =
          ⌈(total : ℚ) / ((paginate pq total rows).limit : ℚ)⌉) := by
  constructor
  · rw [paginate_offset, paginate_page_current, paginate_limit]
    ring
  · intro hL
    rw [paginate_limit] at hL
    rw [paginate_pages, paginate_limit, jsCeil_eq_ceil _ _ hL]
    norm_cast

/-- Witness for claim C5: 45 records with limit 20 give offset 20 on
page 2 and `pages = ⌈45/20⌉ = 3`. -/
theorem paginate_offset_pages_invariant_witness :
    (paginate ⟨some 2, some 20⟩ 45 ([] : List Nat)).offset =
      ((paginate ⟨some 2, some 20⟩ 45 ([] : List Nat)).page.current - 1) *
        (paginate ⟨some 2, some 20⟩ 45 ([] : List Nat)).limit
    ∧ (paginate ⟨some 2, some 20⟩ 45 ([] : List Nat)).pages =
        ⌈((45 : Nat) : ℚ) / ((paginate ⟨some 2, some 20⟩ 45 ([] : List Nat)).limit : ℚ)⌉ :=
  ⟨(paginate_offset_pages_invariant ⟨some 2, some 20⟩ 45 []).1,
   (paginate_offset_pages_invariant ⟨some 2, some 20⟩ 45 []).2 (by decide)⟩

/-- Claim C6 (counterexample): under `archived = true`, the backend
filter that `paginate` derives REJECTS a record whose deletion timestamp
is absent — on the paginate path archived mode is exclusive ("only
deleted"), not additive. -/
theorem archived_filter_counterexample :
    paginateDbFilter (fun _ => true) (ArchVal.bool true) ⟨"x", 0, 0, none⟩ = false := rfl

/-- Claim C6 (amended): when the archived option normalizes to true, the
filter derived by `all` accepts every matching record whether or not its
deletion timestamp is set, but the filter derived by `paginate` accepts a
matching record exactly when its deletion timestamp IS set (only-deleted
semantics, like the single-record reads). -/
theorem archived_filter_amended (q : Model → Bool) (a : ArchVal) (r : Model)
    (ha : convertArchived (jsOrFalse a) = true) (hq : q r = true) :
    allDbFilter q a r = true
    ∧ paginateDbFilter q a r = r.deleted_at.isSome := by
  unfold allDbFilter paginateDbFilter allDeletedCond paginateDeletedCond
  rw [ha, hq]
  cases r.deleted_at <;> simp

/-- Witness for the amended claim C6: a non-deleted record passes the
`all` filter but fails the `paginate` filter under `archived = true`. -/
theorem archived_filter_amended_witness :
    allDbFilter (fun _ => true) (ArchVal.bool true) ⟨"x", 0, 0, none⟩ = true
    ∧ paginateDbFilter (fun _ => true) (ArchVal.bool true) ⟨"x", 0, 0, none⟩ =
        (Model.mk "x" 0 0 none).deleted_at.isSome :=
  archived_filter_amended (fun _ => true) (ArchVal.bool true) ⟨"x", 0, 0, none⟩ rfl rfl

/-- Claim C8 (counterexample): soft-deleting the record `"x"` succeeds,
but a second `softDelete` on the resulting state REJECTS with
`"ModelNotFoundError"` (its internal `byQuery` lookup excludes
soft-deleted records), so the second call does not resolve. -/
theorem softDelete_twice_counterexample :
    softDelete 1 (Cond.str "x") [⟨"x", 0, 0, none⟩] =
      Except.ok (⟨"x", 0, 0, some 1⟩, [⟨"x", 0, 0, some 1⟩])
    ∧ (softDelete 2 (Cond.str "x") [⟨"x", 0, 0, some 1⟩]).isOk = false
    ∧ softDelete 2 (Cond.str "x") [⟨"x", 0, 0, some 1⟩] = Except.error modelNotFound :=
  ⟨rfl, rfl, rfl⟩

/-- Claim C8 (amended): whenever no record both matches the condition and
has its deletion timestamp absent — in particular after a first
successful `softDelete` of the same id, and also when the record was
hard-deleted between the calls — `softDelete` rejects with NotFound;
repeating `softDelete` therefore never resolves a second time. -/
theorem softDelete_repeat_amended (now : Nat) (cond : Cond) (st : List Model)
    (h : st.find? (fun r => getQuery cond r && r.deleted_at.isNone) = none) :
    softDelete now cond st = Except.error modelNotFound := by
  have hb : byQuery (getQuery cond) ArchVal.undef st = Except.error modelNotFound := by
    show (match st.find? (fun r => getQuery cond r && r.deleted_at.isNone) with
          | none => (Except.error modelNotFound : Except String Model)
          | some r => Except.ok r) = Except.error modelNotFound
    rw [h]
  simp only [softDelete, hb]

/-- Witness for the amended claim C8: the state after soft-deleting
`"x"` (deletion timestamp set) makes a second `softDelete` reject. -/
theorem softDelete_repeat_amended_witness :
    softDelete 2 (Cond.str "x") [⟨"x", 0, 0, some 1⟩] = Except.error modelNotFound :=
  softDelete_repeat_amended 2 (Cond.str "x") [⟨"x", 0, 0, some 1⟩] rfl

end Repo
